import Mathlib

/-!
Shallow embedding of `kunalmodi/pollenmobile_sync` (`main.go`) and proofs about it.

The program is a single-file Go scraper: it pulls hex/flower/reward records from
the Pollen Mobile HTTP API (with a retrying, rate-limited fetcher), enriches them
through a reverse-geocoding cache backed by the OSM Nominatim API, and upserts
them into Postgres.  Network, clock and database effects are made explicit:
HTTP upstreams become oracle functions, the geocode cache becomes explicit state
passing, sleeps and attempts become events in a trace, and machine integers
(`int64`/`uint64` in `strconv.ParseInt`) become `Nat`/`Int` with explicit bounds.
-/

set_option autoImplicit false

namespace PollenSync

/-! ### `strconv.ParseInt(s, 16, 64)` model

`isValidHex` (main.go lines 596-608) and `hexToLatLng` (lines 588-592) both call
`strconv.ParseInt(hex, 16, 64)`.  The embedding below follows the Go standard
library's `ParseUint`/`ParseInt` specialised to base 16 and bitSize 64:
an explicit base means no `0x` prefix and no underscores are accepted; a
leading `+`/`-` sign is accepted by `ParseInt`; on a bad digit the result is
`(0, ErrSyntax)`; on overflow the result is clamped (`maxUint64` at the
unsigned layer, `2^63 - 1` / `-2^63` at the signed layer) with `ErrRange`.
-/

/-- Error kinds of `strconv.ParseInt`: `ErrSyntax` and `ErrRange`. -/
inductive ParseErr where
  | errSyn
  | errRange
deriving DecidableEq, Repr

/-- Largest `uint64` value, the clamping value of `ParseUint(_, 16, 64)` on overflow. -/
def maxUint64 : Nat := 2 ^ 64 - 1

/-- Go's `cutoff` for base 16: smallest `n` such that `n * 16` overflows `uint64`. -/
def uintCutoff : Nat := maxUint64 / 16 + 1

/-- Digit value of a character, as in `ParseUint`'s switch: `0-9`, `a-z`, `A-Z`
(letters give values 10-35; values `≥ 16` are rejected separately, mirroring
the `d >= byte(base)` check).  Any other character is a syntax error. -/
def digitVal (c : Char) : Option Nat :=
  if '0' ≤ c ∧ c ≤ '9' then some (c.toNat - '0'.toNat)
  else if 'a' ≤ c ∧ c ≤ 'z' then some (c.toNat - 'a'.toNat + 10)
  else if 'A' ≤ c ∧ c ≤ 'Z' then some (c.toNat - 'A'.toNat + 10)
  else none

/-- The digit-consuming loop of `strconv.ParseUint(s, 16, 64)`.  Returns the
accumulated value and an optional error, with Go's early returns: first bad
digit gives `(0, ErrSyntax)`; the overflow checks give `(maxUint64, ErrRange)`. -/
def parseUintLoop : List Char → Nat → Nat × Option ParseErr
  | [], n => (n, none)
  | c :: cs, n =>
    match digitVal c with
    | none => (0, some .errSyn)
    | some d =>
      if 16 ≤ d then (0, some .errSyn)
      else if uintCutoff ≤ n then (maxUint64, some .errRange)
      else if maxUint64 < n * 16 + d then (maxUint64, some .errRange)
      else parseUintLoop cs (n * 16 + d)

/-- `strconv.ParseUint(s, 16, 64)` on the digit part (after `ParseInt` stripped
the sign): the empty digit string is a syntax error. -/
def goParseUintDigits (digits : List Char) : Nat × Option ParseErr :=
  if digits = [] then (0, some .errSyn) else parseUintLoop digits 0

/-- Signed cutoff `1 << 63` of `ParseInt(_, _, 64)`. -/
def intCutoff : Nat := 2 ^ 63

/-- The tail of `strconv.ParseInt`: convert the unsigned result and check the
signed range.  A syntax error from `ParseUint` is returned as `(0, ErrSyntax)`;
otherwise Go checks `un >= cutoff` (resp. `un > cutoff` when negative) and on
violation clamps to `cutoff - 1` (resp. `-cutoff`) with `ErrRange`. -/
def intFromUint (neg : Bool) (p : Nat × Option ParseErr) : Int × Option ParseErr :=
  match p.2 with
  | some .errSyn => (0, some .errSyn)
  | e =>
    if neg = false ∧ intCutoff ≤ p.1 then ((intCutoff : Int) - 1, some .errRange)
    else if neg = true ∧ intCutoff < p.1 then (-(intCutoff : Int), some .errRange)
    else ((if neg then -(p.1 : Int) else (p.1 : Int)), e)

/-- Sign stripping of `strconv.ParseInt`: a leading `+` or `-` is consumed,
`-` records negativity. -/
def signSplit : List Char → Bool × List Char
  | [] => (false, [])
  | c :: cs =>
    if c = '+' then (false, cs)
    else if c = '-' then (true, cs)
    else (false, c :: cs)

/-- `strconv.ParseInt` on a character list: empty input is a syntax error;
otherwise strip the sign, run `ParseUint` on the rest, and apply the signed
range check. -/
def goParseIntChars : List Char → Int × Option ParseErr
  | [] => (0, some .errSyn)
  | c :: cs =>
    let sg := signSplit (c :: cs)
    intFromUint sg.1 (goParseUintDigits sg.2)

/-- `strconv.ParseInt(s, 16, 64)`. -/
def goParseInt (s : String) : Int × Option ParseErr :=
  goParseIntChars s.data

/-! ### `isValidHex` (main.go lines 596-608) -/

/-- `strings.Split(s, ",")` over the character list: splitting the empty
string yields one empty token, a trailing comma yields a trailing empty token. -/
def splitOnComma : List Char → List (List Char)
  | [] => [[]]
  | c :: cs =>
    if c = ',' then [] :: splitOnComma cs
    else
      match splitOnComma cs with
      | t :: ts => (c :: t) :: ts
      | [] => [[c]]

/-- `isValidHex` from main.go lines 596-608.  The Go loop returns `false` at
the first comma-separated token whose length is not 15 or whose
`strconv.ParseInt(hex, 16, 64)` call errors, and `true` only if every token
passes; as a boolean result this is `List.all` over the split. -/
def isValidHex (s : String) : Bool :=
  (splitOnComma s.data).all fun hex =>
    hex.length == 15 && (goParseIntChars hex).2.isNone

/-! ### `hexToLatLng` (main.go lines 588-592)

The Go function discards `ParseInt`'s error (`value, _ := strconv.ParseInt(...)`)
and feeds the resulting integer straight into the external library function
`h3.CellToLatLng`; that external function is taken as the parameter
`cellToLatLng`. -/

/-- `hexToLatLng` from main.go lines 588-592, parameterised by the external
`h3.CellToLatLng` (spec: the cell-to-coordinate conversion is an external pure
function). -/
def hexToLatLng {α : Type} (cellToLatLng : Int → α) (hex : String) : α :=
  cellToLatLng (goParseInt hex).1

/-- Predicate used only to state claims about "hexadecimal digit strings":
`0-9`, `a-f`, `A-F`. -/
def isHexDigitChar (c : Char) : Bool :=
  ('0' ≤ c && c ≤ '9') || ('a' ≤ c && c ≤ 'f') || ('A' ≤ c && c ≤ 'F')

/-! ### Lemmas about the `ParseInt` model -/

/-- When `ParseUint`'s loop reports a range error, the value it returns is the
clamped `maxUint64`. -/
lemma parseUintLoop_range_val (cs : List Char) : ∀ n : Nat,
    (parseUintLoop cs n).2 = some ParseErr.errRange →
      (parseUintLoop cs n).1 = maxUint64 := by
  induction cs with
  | nil => intro n h; simp [parseUintLoop] at h
  | cons c cs ih =>
    intro n h
    simp only [parseUintLoop] at h ⊢
    cases hd : digitVal c with
    | none => simp [hd] at h
    | some d =>
      simp only [hd] at h ⊢
      by_cases h16 : 16 ≤ d
      · simp [h16] at h
      · by_cases hcut : uintCutoff ≤ n
        · simp [h16, hcut]
        · by_cases hmax : maxUint64 < n * 16 + d
          · simp [h16, hcut, hmax]
          · simp only [h16, hcut, hmax, if_false, if_neg, if_true] at h ⊢
            exact ih _ h

/-- When `ParseUint` reports a range error, the value it returns is `maxUint64`. -/
lemma goParseUintDigits_range_val (ds : List Char)
    (h : (goParseUintDigits ds).2 = some ParseErr.errRange) :
    (goParseUintDigits ds).1 = maxUint64 := by
  by_cases hds : ds = []
  · simp [goParseUintDigits, hds] at h
  · simp only [goParseUintDigits, hds, if_false, if_neg, not_false_iff] at h ⊢
    exact parseUintLoop_range_val ds 0 h

/-- When the signed conversion reports a syntax error, the value is `0`. -/
lemma intFromUint_syn_val (neg : Bool) (p : Nat × Option ParseErr)
    (h : (intFromUint neg p).2 = some ParseErr.errSyn) :
    (intFromUint neg p).1 = 0 := by
  rcases p with ⟨un, e⟩
  rcases e with _ | pe
  · simp only [intFromUint] at h ⊢
    split_ifs at h ⊢ <;> simp_all
  · cases pe
    · rfl
    · simp only [intFromUint] at h ⊢
      split_ifs at h ⊢ <;> simp_all

/-- When the signed conversion reports a range error, the value is one of the
two `int64` bounds. -/
lemma intFromUint_range_val (neg : Bool) (p : Nat × Option ParseErr)
    (hp : p.2 = some ParseErr.errRange → p.1 = maxUint64)
    (h : (intFromUint neg p).2 = some ParseErr.errRange) :
    (intFromUint neg p).1 = (intCutoff : Int) - 1 ∨
      (intFromUint neg p).1 = -(intCutoff : Int) := by
  rcases p with ⟨un, e⟩
  rcases e with _ | pe
  · simp only [intFromUint] at h ⊢
    split_ifs at h ⊢ <;> simp_all
  · cases pe
    · simp [intFromUint] at h
    · have hun : un = maxUint64 := hp rfl
      subst hun
      simp only [intFromUint] at h ⊢
      cases neg
      · rw [if_pos ⟨rfl, by decide⟩]
        left; rfl
      · rw [if_neg (by simp), if_pos ⟨rfl, by decide⟩]
        right; rfl

/-- Syntax-error values of the full `ParseInt`: the returned integer is `0`. -/
lemma goParseIntChars_syn_val (cs : List Char)
    (h : (goParseIntChars cs).2 = some ParseErr.errSyn) :
    (goParseIntChars cs).1 = 0 := by
  cases cs with
  | nil => rfl
  | cons c cs => exact intFromUint_syn_val _ _ h

/-- Range-error values of the full `ParseInt`: the returned integer is one of
the two `int64` bounds. -/
lemma goParseIntChars_range_val (cs : List Char)
    (h : (goParseIntChars cs).2 = some ParseErr.errRange) :
    (goParseIntChars cs).1 = (intCutoff : Int) - 1 ∨
      (goParseIntChars cs).1 = -(intCutoff : Int) := by
  cases cs with
  | nil => simp [goParseIntChars] at h
  | cons c cs => exact intFromUint_range_val _ _ (goParseUintDigits_range_val _) h

/-! ### Claims C5, C9, C10 -/

/-- Claim C5: `isValidHex` returns `true` on
`"852a1393fffffff,852a104bfffffff"`, `false` on `"852a1393fffffff,"` (trailing
empty token), `false` on `"nothex"`, and `false` on the empty string; in
general it returns `true` iff every comma-separated token is exactly 15
characters long and parses under `strconv.ParseInt(tok, 16, 64)`. -/
theorem isValidHex_spec :
    isValidHex "852a1393fffffff,852a104bfffffff" = true ∧
    isValidHex "852a1393fffffff," = false ∧
    isValidHex "nothex" = false ∧
    isValidHex "" = false ∧
    ∀ s : String, isValidHex s = true ↔
      ∀ hex ∈ splitOnComma s.data,
        hex.length = 15 ∧ (goParseIntChars hex).2 = none := by
  refine ⟨by decide, by decide, by decide, by decide, fun s => ?_⟩
  simp [isValidHex, List.all_eq_true, Option.isNone_iff_eq_none]

/-- Witness for C5: the general characterisation applied at a concrete input. -/
theorem isValidHex_spec_witness : isValidHex "852a1393fffffff" = true :=
  (isValidHex_spec.2.2.2.2 "852a1393fffffff").mpr (by decide)

/-- Claim C10: there are 15-character tokens that are not strings of
hexadecimal digits but that `isValidHex` accepts: `"+2a1393ffffffff"` (a `+`
sign followed by 14 hex digits) has length 15, is not all hex digits, and
`isValidHex` returns `true` on it because `strconv.ParseInt` accepts a leading
sign. -/
theorem isValidHex_accepts_signed_token :
    isValidHex "+2a1393ffffffff" = true ∧
    "+2a1393ffffffff".length = 15 ∧
    "+2a1393ffffffff".data.all isHexDigitChar = false := by
  refine ⟨by decide, by decide, by decide⟩

/-- Counterexample for C9: the claim says every non-parsing string is mapped
to the coordinates of cell value `0`, but `"ffffffffffffffff"` (sixteen `f`s)
fails to parse with a range error and `hexToLatLng` feeds the clamped value
`2^63 - 1` — not `0` — to the cell-to-coordinate function. -/
theorem hexToLatLng_not_cell_zero :
    (goParseInt "ffffffffffffffff").2 ≠ none ∧
    hexToLatLng (fun v => v) "ffffffffffffffff" = 2 ^ 63 - 1 ∧
    hexToLatLng (fun v => v) "ffffffffffffffff" ≠ (0 : Int) := by
  refine ⟨by decide, by decide, by decide⟩

/-- Claim C9 (amended): `hexToLatLng` is total — it discards the parse error
and always feeds `strconv.ParseInt`'s returned integer to the external
cell-to-coordinate function, so `reverseGeocode` never fails on a malformed
cell ID; on a syntax error that integer is `0`, and on a range error it is the
clamped `int64` bound `2^63 - 1` or `-2^63` (not `0`). -/
theorem hexToLatLng_total :
    (∀ (α : Type) (cellToLatLng : Int → α) (hex : String),
        hexToLatLng cellToLatLng hex = cellToLatLng (goParseInt hex).1) ∧
    (∀ s : String, (goParseInt s).2 = some ParseErr.errSyn →
        (goParseInt s).1 = 0) ∧
    (∀ s : String, (goParseInt s).2 = some ParseErr.errRange →
        (goParseInt s).1 = 2 ^ 63 - 1 ∨ (goParseInt s).1 = -(2 ^ 63)) := by
  refine ⟨fun α f hex => rfl, fun s h => ?_, fun s h => ?_⟩
  · exact goParseIntChars_syn_val s.data h
  · have := goParseIntChars_range_val s.data h
    simpa [goParseInt, intCutoff] using this

/-- Witness for C9 (amended): the syntax-error clause applied at `"zz"`. -/
theorem hexToLatLng_total_witness :
    (goParseInt "zz").2 = some ParseErr.errSyn ∧ (goParseInt "zz").1 = 0 :=
  ⟨by decide, hexToLatLng_total.2.1 "zz" (by decide)⟩

/-! ### `pollenAPICallWithRetries` (main.go lines 454-463)

```go
func pollenAPICallWithRetries[T interface{}](url string) (t T, err error) {
    for i := 0; i < pollenRetries; i++ {
        t, err := pollenAPICall[T](url)
        if err == nil {
            return t, err
        }
        time.Sleep(pollenRetryWaitTime)
    }
    return t, err
}
```

The `t, err :=` inside the loop declares fresh variables that shadow the named
return values, so the final `return t, err` returns the *outer* `t` and `err`,
which are never assigned: the zero value of `T` and a `nil` error.  The
embedding makes one attempt an oracle call `attempt i : Except E T`
(`pollenAPICall` covers both transport and decode errors), makes the zero
value explicit, and records a trace of attempt and sleep events. -/

/-- `pollenRetries` from main.go line 352. -/
def pollenRetries : Nat := 3

/-- Observable events of the retry loop: issuing attempt number `i`
(0-based), and one fixed-duration sleep (`pollenRetryWaitTime`). -/
inductive FetchEvent where
  | attemptEv (i : Nat)
  | sleepEv
deriving DecidableEq, Repr

/-- Boolean recogniser for attempt events, used to count attempts in traces. -/
def FetchEvent.isAttempt : FetchEvent → Bool
  | .attemptEv _ => true
  | .sleepEv => false

/-- The `for i := 0; i < pollenRetries; i++` loop, by remaining iteration
count (`rem`) and current index `i`.  On a successful attempt the inner
(shadowing) `t, err` are returned; after a failed attempt the loop sleeps and
continues; when the loop exhausts, the *outer* named returns — the zero value
and `nil` error, never assigned — are returned. -/
def retriesLoop {E T : Type} (attempt : Nat → Except E T) (zero : T) :
    Nat → Nat → (T × Option E) × List FetchEvent
  | 0, _ => ((zero, none), [])
  | rem + 1, i =>
    match attempt i with
    | .ok v => ((v, none), [.attemptEv i])
    | .error _ =>
      let rest := retriesLoop attempt zero rem (i + 1)
      (rest.1, .attemptEv i :: .sleepEv :: rest.2)

/-- `pollenAPICallWithRetries` from main.go lines 454-463: result value,
returned error (as `Option`, `none` = Go's `nil`), and event trace. -/
def pollenAPICallWithRetries {E T : Type} (attempt : Nat → Except E T)
    (zero : T) : (T × Option E) × List FetchEvent :=
  retriesLoop attempt zero pollenRetries 0

/-! ### Claims C1, C4 -/

/-- Claim C1 is a code bug: when every attempt fails, `pollenAPICallWithRetries`
does **not** return the last attempt's error — the loop-local `t, err :=`
shadow the named return values, so after the retry ceiling is exhausted the
function returns the zero value of `T` with a `nil` error (a "success").
Evaluated here at an always-failing transport: the result is `(0, none)` —
zero value, no error — after the full trace of 3 attempts and 3 sleeps. -/
theorem pollenAPICallWithRetries_shadowing_bug :
    pollenAPICallWithRetries (fun _ => (Except.error "connection refused" :
        Except String Nat)) 0 =
      ((0, none),
       [.attemptEv 0, .sleepEv, .attemptEv 1, .sleepEv, .attemptEv 2, .sleepEv]) := by
  decide

/-- Counterexample for C4: on an always-failing fetch the loop performs 3
attempts but sleeps after **every** failed attempt, the last included — 3
sleeps, not the claimed attempt-count-minus-one (2). -/
theorem pollenAPICallWithRetries_sleep_count :
    ((pollenAPICallWithRetries (fun _ => (Except.error "boom" :
        Except String Nat)) 0).2.countP FetchEvent.isAttempt = 3) ∧
    ((pollenAPICallWithRetries (fun _ => (Except.error "boom" :
        Except String Nat)) 0).2.count FetchEvent.sleepEv = 3) ∧
    (3 : Nat) ≠ 3 - 1 := by
  refine ⟨by decide, by decide, by decide⟩

/-- Claim C4 (amended): for every fetch whose underlying attempts all fail,
`pollenAPICallWithRetries` performs exactly 3 attempts, with one fixed backoff
sleep after **each** failed attempt including the last — 3 sleeps, not 2 —
before the call returns. -/
theorem pollenAPICallWithRetries_all_fail {E T : Type}
    (attempt : Nat → Except E T) (zero : T)
    (hfail : ∀ i, i < pollenRetries → ∃ e, attempt i = Except.error e) :
    (pollenAPICallWithRetries attempt zero).2 =
      [.attemptEv 0, .sleepEv, .attemptEv 1, .sleepEv, .attemptEv 2, .sleepEv] ∧
    (pollenAPICallWithRetries attempt zero).2.countP FetchEvent.isAttempt =
      pollenRetries ∧
    (pollenAPICallWithRetries attempt zero).2.count FetchEvent.sleepEv =
      pollenRetries := by
  obtain ⟨e0, h0⟩ := hfail 0 (by decide)
  obtain ⟨e1, h1⟩ := hfail 1 (by decide)
  obtain ⟨e2, h2⟩ := hfail 2 (by decide)
  have htrace : (pollenAPICallWithRetries attempt zero).2 =
      [.attemptEv 0, .sleepEv, .attemptEv 1, .sleepEv, .attemptEv 2, .sleepEv] := by
    simp [pollenAPICallWithRetries, pollenRetries, retriesLoop, h0, h1, h2]
  refine ⟨htrace, ?_, ?_⟩ <;> rw [htrace] <;> decide

/-- Witness for C4 (amended): the theorem applied to a concrete always-failing
attempt function. -/
theorem pollenAPICallWithRetries_all_fail_witness :
    (pollenAPICallWithRetries (fun _ => (Except.error 7 : Except Nat Nat)) 4).2 =
      [.attemptEv 0, .sleepEv, .attemptEv 1, .sleepEv, .attemptEv 2, .sleepEv] :=
  (pollenAPICallWithRetries_all_fail (fun _ => Except.error 7) 4
    (fun _ _ => ⟨7, rfl⟩)).1

/-! ### Reverse-geocode cache (main.go lines 485-586)

`osmCache` is a Go map from hex string to `ReverseGeocode`; it becomes an
association list threaded through every call (newest binding first, which is
exactly Go's map-update semantics under lookup).  `float64` coordinates are
carried opaquely; they are modelled as `Rat` (no floating-point reasoning is
done on them).  The Nominatim HTTP upstream — request, transport, JSON decode
(main.go lines 558-572) — is an oracle `osm : Rat × Rat → Except String
OSMPAPIResponse`; the `h3`-based coordinate derivation (line 557) is the
parameter `latlng`.  Every upstream call made on a cache miss is recorded in
`osmCallLog` (most recent first), so "number of upstream lookups" is a count
in that log. -/

/-- Go map lookup on an association list (newest binding first). -/
def mapGet {β : Type} (k : String) : List (String × β) → Option β
  | [] => none
  | (k', v) :: rest => if k' = k then some v else mapGet k rest

/-- `ReverseGeocode` from main.go lines 509-518. -/
structure ReverseGeocode where
  lat : Rat
  lng : Rat
  address : String
  suburb : String
  city : String
  state : String
  town : String
  county : String
deriving DecidableEq, Repr

/-- `OSMPAPIResponse` from main.go lines 498-507 (flattening the nested
`address` object). -/
structure OSMPAPIResponse where
  displayName : String
  suburb : String
  city : String
  state : String
  town : String
  county : String
deriving DecidableEq, Repr

/-- The mutable state touched by `reverseGeocode`: the `osmCache` map
(main.go line 492) plus an instrumentation log of upstream calls made. -/
structure GeoState where
  osmCache : List (String × ReverseGeocode)
  osmCallLog : List String
deriving DecidableEq, Repr

/-- `reverseGeocode` from main.go lines 551-586: a cache hit returns the
cached record with no upstream call; a miss derives coordinates, calls the OSM
upstream (logged), and on success stores and returns the assembled record — an
upstream or decode failure propagates and caches nothing. -/
def reverseGeocode (latlng : String → Rat × Rat)
    (osm : Rat × Rat → Except String OSMPAPIResponse)
    (hex : String) (st : GeoState) :
    Except String ReverseGeocode × GeoState :=
  match mapGet hex st.osmCache with
  | some record => (.ok record, st)
  | none =>
    let p := latlng hex
    let st' : GeoState := { st with osmCallLog := hex :: st.osmCallLog }
    match osm p with
    | .error e => (.error e, st')
    | .ok place =>
      let g : ReverseGeocode :=
        { lat := p.1, lng := p.2, address := place.displayName,
          suburb := place.suburb, city := place.city, state := place.state,
          town := place.town, county := place.county }
      (.ok g, { st' with osmCache := (hex, g) :: st'.osmCache })

/-- One run's sequence of geocode resolutions.  Per main.go, every caller of
`reverseGeocode` (`syncFlowers` line 120, `syncHexes` line 176) propagates its
error, and `main` aborts on any propagated error (`handleErr`, lines 610-615),
so a run's sequence of resolutions stops at the first failure. -/
def runGeocodes (latlng : String → Rat × Rat)
    (osm : Rat × Rat → Except String OSMPAPIResponse) :
    List String → GeoState → GeoState
  | [], st => st
  | hex :: rest, st =>
    match reverseGeocode latlng osm hex st with
    | (.ok _, st') => runGeocodes latlng osm rest st'
    | (.error _, st') => st'

/-- Run invariant: no duplicate upstream calls so far, and every hex that was
ever looked up upstream is now cached (true while no lookup has failed). -/
def GeoInv (st : GeoState) : Prop :=
  st.osmCallLog.Nodup ∧ ∀ h ∈ st.osmCallLog, (mapGet h st.osmCache).isSome

/-- A cache entry survives one `reverseGeocode` step unchanged. -/
lemma reverseGeocode_mapGet_mono (latlng : String → Rat × Rat)
    (osm : Rat × Rat → Except String OSMPAPIResponse)
    (hex h : String) (v : ReverseGeocode) (st : GeoState)
    (hv : mapGet h st.osmCache = some v) :
    mapGet h ((reverseGeocode latlng osm hex st).2).osmCache = some v := by
  cases hc : mapGet hex st.osmCache with
  | some r => simp only [reverseGeocode, hc]; exact hv
  | none =>
    cases hosm : osm (latlng hex) with
    | error e => simp only [reverseGeocode, hc, hosm]; exact hv
    | ok place =>
      simp only [reverseGeocode, hc, hosm, mapGet]
      by_cases hh : hex = h
      · subst hh; rw [hc] at hv; exact absurd hv (by simp)
      · rw [if_neg hh]; exact hv

/-- A cache entry survives a whole run unchanged (a cache entry is never
invalidated or overwritten within a run). -/
lemma runGeocodes_mapGet_mono (latlng : String → Rat × Rat)
    (osm : Rat × Rat → Except String OSMPAPIResponse)
    (hexes : List String) : ∀ (st : GeoState) (h : String) (v : ReverseGeocode),
    mapGet h st.osmCache = some v →
      mapGet h ((runGeocodes latlng osm hexes st).osmCache) = some v := by
  induction hexes with
  | nil => intro st h v hv; exact hv
  | cons hex rest ih =>
    intro st h v hv
    have hmono := reverseGeocode_mapGet_mono latlng osm hex h v st hv
    unfold runGeocodes
    cases hres : reverseGeocode latlng osm hex st with
    | mk r st' =>
      rw [hres] at hmono
      cases r with
      | ok g => exact ih st' h v hmono
      | error e => exact hmono

/-- After a run that starts with an empty call log, the upstream call log has
no duplicates: each distinct cell ID is looked up upstream at most once. -/
lemma runGeocodes_log_nodup (latlng : String → Rat × Rat)
    (osm : Rat × Rat → Except String OSMPAPIResponse)
    (hexes : List String) : ∀ (st : GeoState), GeoInv st →
      ((runGeocodes latlng osm hexes st).osmCallLog).Nodup := by
  induction hexes with
  | nil => intro st hinv; exact hinv.1
  | cons hex rest ih =>
    intro st hinv
    cases hc : mapGet hex st.osmCache with
    | some r =>
      have hstep : reverseGeocode latlng osm hex st = (.ok r, st) := by
        simp [reverseGeocode, hc]
      simp only [runGeocodes, hstep]
      exact ih st hinv
    | none =>
      have hnotin : hex ∉ st.osmCallLog := by
        intro hmem
        have := hinv.2 hex hmem
        rw [hc] at this
        simp at this
      cases hosm : osm (latlng hex) with
      | error e =>
        have hstep : reverseGeocode latlng osm hex st =
            (.error e, { st with osmCallLog := hex :: st.osmCallLog }) := by
          simp [reverseGeocode, hc, hosm]
        simp only [runGeocodes, hstep]
        exact List.nodup_cons.mpr ⟨hnotin, hinv.1⟩
      | ok place =>
        have hstep : reverseGeocode latlng osm hex st =
            (.ok { lat := (latlng hex).1, lng := (latlng hex).2,
                   address := place.displayName, suburb := place.suburb,
                   city := place.city, state := place.state,
                   town := place.town, county := place.county },
             { osmCache := (hex,
                 { lat := (latlng hex).1, lng := (latlng hex).2,
                   address := place.displayName, suburb := place.suburb,
                   city := place.city, state := place.state,
                   town := place.town, county := place.county }) :: st.osmCache,
               osmCallLog := hex :: st.osmCallLog }) := by
          simp [reverseGeocode, hc, hosm]
        simp only [runGeocodes, hstep]
        apply ih
        refine ⟨List.nodup_cons.mpr ⟨hnotin, hinv.1⟩, ?_⟩
        intro h hmem
        rcases List.mem_cons.mp hmem with rfl | hmem'
        · simp [mapGet]
        · have := hinv.2 h hmem'
          simp only [mapGet]
          by_cases hh : hex = h
          · simp [hh]
          · rw [if_neg hh]; exact this

/-! ### Claim C6 -/

/-- Claim C6: a cache hit returns the cached value with no upstream call and
no state change; a cache entry is never invalidated or overwritten within a
run; and in a run starting with no upstream calls, each distinct cell ID
triggers at most one upstream geocode lookup. -/
theorem reverseGeocode_cache_spec (latlng : String → Rat × Rat)
    (osm : Rat × Rat → Except String OSMPAPIResponse) :
    (∀ (hex : String) (v : ReverseGeocode) (st : GeoState),
        mapGet hex st.osmCache = some v →
          reverseGeocode latlng osm hex st = (.ok v, st)) ∧
    (∀ (hexes : List String) (st : GeoState) (h : String) (v : ReverseGeocode),
        mapGet h st.osmCache = some v →
          mapGet h ((runGeocodes latlng osm hexes st).osmCache) = some v) ∧
    (∀ (hexes : List String) (st : GeoState), st.osmCallLog = [] →
        ∀ h : String,
          ((runGeocodes latlng osm hexes st).osmCallLog).count h ≤ 1) := by
  refine ⟨fun hex v st hv => ?_, runGeocodes_mapGet_mono latlng osm,
    fun hexes st hlog h => ?_⟩
  · unfold reverseGeocode
    rw [hv]
  · have hinv : GeoInv st := by
      constructor
      · rw [hlog]; exact List.nodup_nil
      · rw [hlog]; intro h hmem; exact absurd hmem (List.not_mem_nil h)
    exact List.nodup_iff_count_le_one.mp
      (runGeocodes_log_nodup latlng osm hexes st hinv) h

/-- Witness for C6: the cache-hit clause applied at a concrete warmed state:
the stored value is returned unchanged (no upstream call is even possible —
the oracle here always fails, yet the result is `ok`). -/
theorem reverseGeocode_cache_spec_witness :
    reverseGeocode (fun _ => (0, 0)) (fun _ => .error "no upstream")
      "852a1393fffffff"
      ⟨[("852a1393fffffff", ⟨1, 2, "addr", "sub", "city", "st", "town", "cty"⟩)], []⟩ =
      (.ok ⟨1, 2, "addr", "sub", "city", "st", "town", "cty"⟩,
       ⟨[("852a1393fffffff", ⟨1, 2, "addr", "sub", "city", "st", "town", "cty"⟩)], []⟩) :=
  (reverseGeocode_cache_spec (fun _ => (0, 0)) (fun _ => .error "no upstream")).1
    "852a1393fffffff" ⟨1, 2, "addr", "sub", "city", "st", "town", "cty"⟩
    ⟨[("852a1393fffffff", ⟨1, 2, "addr", "sub", "city", "st", "town", "cty"⟩)], []⟩
    (by decide)

/-! ### Reward coverage normalization (main.go lines 76-99, 413-430)

`DeviceRewardItem.Coverage` is declared `interface{}` with the comment
"This should usually be `[]string`, but some records mangle the API response
with `"[]"`. So we'll have to fix that manually."  `syncRewards` then runs

```go
coverage := []string{}
switch v := r.Coverage.(type) {
case []string:
    coverage = v
}
```

The embedding models JSON documents and the dynamic Go values an `interface{}`
can hold.  Per the `encoding/json` contract, unmarshalling into an
`interface{}` stores exactly one of: `nil`, `bool`, `float64`, `string`,
`[]interface{}`, `map[string]interface{}` — a JSON array decodes to
`[]interface{}`, never to `[]string`.  The dynamic type `[]string` exists as a
`GoValue` constructor because a Go program can hold it, but `decodeInterface`
(the unmarshaller) never produces it. -/

/-- A JSON document.  Numbers are carried as rationals (their exact value is
irrelevant to the claims). -/
inductive Json where
  | jnull
  | jbool (b : Bool)
  | jnum (q : Rat)
  | jstr (s : String)
  | jarr (elems : List Json)
  | jobj (fields : List (String × Json))

/-- A dynamic Go value held in an `interface{}`. -/
inductive GoValue where
  | goNil
  | goBool (b : Bool)
  | goFloat (q : Rat)
  | goString (s : String)
  | goSlice (elems : List GoValue)
  | goMap (fields : List (String × GoValue))
  | goStringSlice (elems : List String)

mutual

/-- `encoding/json` unmarshalling of a JSON document into an `interface{}`:
`nil`, `bool`, `float64`, `string`, `[]interface{}`, `map[string]interface{}`.
It is total (decoding into `interface{}` cannot fail) and never produces the
dynamic type `[]string`. -/
def decodeInterface : Json → GoValue
  | .jnull => .goNil
  | .jbool b => .goBool b
  | .jnum q => .goFloat q
  | .jstr s => .goString s
  | .jarr elems => .goSlice (decodeInterfaceList elems)
  | .jobj fields => .goMap (decodeInterfaceFields fields)

/-- Elementwise decoding of a JSON array into `[]interface{}`. -/
def decodeInterfaceList : List Json → List GoValue
  | [] => []
  | j :: rest => decodeInterface j :: decodeInterfaceList rest

/-- Fieldwise decoding of a JSON object into `map[string]interface{}`. -/
def decodeInterfaceFields : List (String × Json) → List (String × GoValue)
  | [] => []
  | (k, j) :: rest => (k, decodeInterface j) :: decodeInterfaceFields rest

end

/-- The coverage type switch of `syncRewards` (main.go lines 78-82): keep the
value only when its dynamic type is exactly `[]string`, otherwise the empty
list. -/
def coverageSwitch : GoValue → List String
  | .goStringSlice elems => elems
  | _ => []

/-- The Coverage column stored for a reward whose JSON `coverage` field is
`coverageJson`: decode into the `interface{}` field (main.go line 420), then
normalize via the type switch (lines 78-82). -/
def storedCoverage (coverageJson : Json) : List String :=
  coverageSwitch (decodeInterface coverageJson)

/-! ### Claim C3 -/

/-- Claim C3 is a code bug.  Decoding a JSON value into the `interface{}`
field never fails and never yields the dynamic type `[]string` (a JSON array
decodes to `[]interface{}`), so the `case []string` arm of the type switch can
never fire on decoded data: the stored Coverage is the empty list for **every**
JSON shape of the `coverage` field — including a genuine JSON array of strings,
where the claim (and the code's own comment) say the list should be kept.
Evaluated at the failing input `["852a1393fffffff"]`, and at the spec's
string-`"[]"` example, both store the empty list. -/
theorem storedCoverage_always_empty :
    (∀ j : Json, storedCoverage j = []) ∧
    storedCoverage (.jarr [.jstr "852a1393fffffff"]) = [] ∧
    storedCoverage (.jstr "[]") = [] := by
  have hall : ∀ j : Json, storedCoverage j = [] := by
    intro j
    cases j <;> rfl
  exact ⟨hall, hall _, hall _⟩

/-! ### Upsert semantics (main.go lines 302-307)

`upsertClause` declares `clause.OnConflict{Columns: [{Name: "id"}], UpdateAll:
true, DoUpdates: [{Column: "updated_at", Value: time.Now()}]}` and every sync
routine applies it to its `Create`/`CreateInBatches` call. -/

/-- A stored row: its non-timestamp columns (generic, `UpdateAll` overwrites
them all) and the `updated_at` timestamp.  Timestamps are modelled as `Nat`. -/
structure StoredRow (α : Type) where
  cols : α
  updatedAt : Nat
deriving DecidableEq, Repr

/-- Modelled from the spec: the upsert executor itself lives in the storage
library (gorm/Postgres), outside this repository's source — `main.go` only
declares `upsertClause` (lines 302-307: conflict target `id`, update all
columns, set `updated_at` to the current time) and the spec fixes its
semantics: "every upsert sets last-updated to the current time regardless of
which other columns changed" (last-write-wins on arrival).  `upsertRow now
store id cols` inserts or replaces the row keyed `id` with columns `cols` and
`updated_at = now`. -/
def upsertRow {α : Type} (now : Nat) :
    List (String × StoredRow α) → String → α → List (String × StoredRow α)
  | [], id, cols => [(id, ⟨cols, now⟩)]
  | (k, r) :: rest, id, cols =>
    if k = id then (k, ⟨cols, now⟩) :: rest
    else (k, r) :: upsertRow now rest id cols

/-- Modelled from the spec: a batched upsert (`CreateInBatches(..., 200)` with
`upsertClause`) applies the per-row upsert to each record in order; batching
only groups statements and does not change the per-key outcome. -/
def upsertBatch {α : Type} (now : Nat) (store : List (String × StoredRow α))
    (rows : List (String × α)) : List (String × StoredRow α) :=
  rows.foldl (fun st p => upsertRow now st p.1 p.2) store

/-- Upserting a key makes its row carry the new columns and the new timestamp. -/
lemma upsertRow_mapGet_self {α : Type} (now : Nat)
    (store : List (String × StoredRow α)) (id : String) (cols : α) :
    mapGet id (upsertRow now store id cols) = some ⟨cols, now⟩ := by
  induction store with
  | nil => simp [upsertRow, mapGet]
  | cons p rest ih =>
    rcases p with ⟨k, r⟩
    by_cases hk : k = id
    · simp [upsertRow, mapGet, hk]
    · simp [upsertRow, mapGet, hk, ih]

/-- Upserting a key leaves every other key's row unchanged. -/
lemma upsertRow_mapGet_other {α : Type} (now : Nat)
    (store : List (String × StoredRow α)) (id id' : String) (cols : α)
    (hne : id' ≠ id) :
    mapGet id' (upsertRow now store id cols) = mapGet id' store := by
  have hne' : ¬ id = id' := fun h => hne h.symm
  induction store with
  | nil => simp [upsertRow, mapGet, hne']
  | cons p rest ih =>
    rcases p with ⟨k, r⟩
    by_cases hk : k = id
    · subst hk
      simp [upsertRow, mapGet, hne']
    · simp [upsertRow, mapGet, hk, ih]

/-- A key not named in the batch is untouched by the batch upsert. -/
lemma upsertBatch_mapGet_notmem {α : Type} (now : Nat)
    (rows : List (String × α)) :
    ∀ (store : List (String × StoredRow α)) (id : String),
      id ∉ rows.map Prod.fst →
        mapGet id (upsertBatch now store rows) = mapGet id store := by
  induction rows with
  | nil => intro store id _; rfl
  | cons p rest ih =>
    intro store id hid
    rcases p with ⟨k, cols⟩
    simp only [List.map_cons, List.mem_cons] at hid
    push_neg at hid
    calc mapGet id (upsertBatch now store ((k, cols) :: rest))
        = mapGet id (upsertBatch now (upsertRow now store k cols) rest) := rfl
      _ = mapGet id (upsertRow now store k cols) := ih _ id hid.2
      _ = mapGet id store := upsertRow_mapGet_other now store k id cols hid.1

/-- A key named in a batch with distinct keys ends up with its columns and the
batch's timestamp. -/
lemma upsertBatch_mapGet_mem {α : Type} (now : Nat) (rows : List (String × α)) :
    ∀ (store : List (String × StoredRow α)) (id : String) (cols : α),
      (id, cols) ∈ rows → (rows.map Prod.fst).Nodup →
        mapGet id (upsertBatch now store rows) = some ⟨cols, now⟩ := by
  induction rows with
  | nil => intro _ _ _ hmem; exact absurd hmem (List.not_mem_nil _)
  | cons p rest ih =>
    intro store id cols hmem hnd
    rcases p with ⟨k, kcols⟩
    simp only [List.map_cons, List.nodup_cons] at hnd
    rcases List.mem_cons.mp hmem with heq | hmem'
    · cases heq
      have hnotin : id ∉ rest.map Prod.fst := hnd.1
      calc mapGet id (upsertBatch now store ((id, cols) :: rest))
          = mapGet id (upsertBatch now (upsertRow now store id cols) rest) := rfl
        _ = mapGet id (upsertRow now store id cols) :=
            upsertBatch_mapGet_notmem now rest _ id hnotin
        _ = some ⟨cols, now⟩ := upsertRow_mapGet_self now store id cols
    · exact ih _ id cols hmem' hnd.2

/-! ### Claim C7 -/

/-- Claim C7: running the same batch upsert twice (unchanged upstream data)
with strictly increasing clock readings leaves every synced record's columns
identical between the two runs while its `updated_at` strictly increases; rows
not named in the batch are untouched by the second run.  (Record IDs are
primary keys, so a batch's keys are distinct.) -/
theorem upsert_idempotent_except_timestamp {α : Type}
    (store : List (String × StoredRow α)) (rows : List (String × α))
    (now₁ now₂ : Nat) (hnow : now₁ < now₂)
    (hnd : (rows.map Prod.fst).Nodup) :
    (∀ (id : String) (cols : α), (id, cols) ∈ rows →
      ∃ r₁ r₂ : StoredRow α,
        mapGet id (upsertBatch now₁ store rows) = some r₁ ∧
        mapGet id (upsertBatch now₂ (upsertBatch now₁ store rows) rows) = some r₂ ∧
        r₁.cols = r₂.cols ∧ r₁.updatedAt < r₂.updatedAt) ∧
    (∀ id : String, id ∉ rows.map Prod.fst →
      mapGet id (upsertBatch now₂ (upsertBatch now₁ store rows) rows) =
        mapGet id (upsertBatch now₁ store rows)) := by
  constructor
  · intro id cols hmem
    refine ⟨⟨cols, now₁⟩, ⟨cols, now₂⟩, ?_, ?_, rfl, hnow⟩
    · exact upsertBatch_mapGet_mem now₁ rows store id cols hmem hnd
    · exact upsertBatch_mapGet_mem now₂ rows _ id cols hmem hnd
  · intro id hid
    exact upsertBatch_mapGet_notmem now₂ rows _ id hid

/-- Witness for C7: the theorem applied to a concrete store and batch. -/
theorem upsert_idempotent_except_timestamp_witness :
    ∃ r₁ r₂ : StoredRow Nat,
      mapGet "x" (upsertBatch 1 ([] : List (String × StoredRow Nat)) [("x", 5)]) =
        some r₁ ∧
      mapGet "x" (upsertBatch 2 (upsertBatch 1 ([] : List (String × StoredRow Nat))
        [("x", 5)]) [("x", 5)]) = some r₂ ∧
      r₁.cols = r₂.cols ∧ r₁.updatedAt < r₂.updatedAt :=
  (upsert_idempotent_except_timestamp ([] : List (String × StoredRow Nat))
    [("x", 5)] 1 2 (by decide) (by decide)).1 "x" 5 (by decide)

/-! ### `syncFlowers` (main.go lines 107-158)

`syncFlowers` fetches the flower list (`getAllFlowers`, a retrying API call —
here the already-settled fetch result is passed in), prints the single line
`"Found N flowers"`, then loops over the items: marshal the `BeesSeen` map
(`json.Marshal` of a `map[string]string` is total; it is the parameter
`marshalMap`), resolve the geocode (propagating its error), and assemble a
`Flower` row; finally the rows go to the batched upsert.  The loop body prints
nothing (unlike `syncRewards` line 69 and `syncHexes` line 169, which print
every 100 iterations). -/

/-- `FlowerListItem` from main.go lines 387-410.  Go numbers are `Int`/`Rat`;
the `bees_seen` JSON map is a `map[string]string`. -/
structure FlowerListItem where
  BountyRewards : Int
  DisplayName : String
  UpdateTime : String
  DailyBeesSeen : List String
  FirstSeen : Option String
  HBeesSeen : List String
  WalletAddress : String
  CoveredHexes : List String
  LastSeen : Option String
  DailyAttaches : Int
  H3Hex : String
  Active : Int
  FlowerRewards : Rat
  DailyCoveredHexes : List String
  NFTAddress : String
  ID : String
  Nickname : String
  FlowerAttaches : Int
  DailyHBeesSeen : List String
  DailyRewards : Rat
  ImageURL : String
  BeesSeen : List (String × String)
deriving DecidableEq, Repr, Inhabited

/-- `Flower` from main.go lines 237-269 (without the `UpdatedAt` column, which
the upsert layer owns). -/
structure Flower where
  ID : String
  BountyRewards : Int
  DisplayName : String
  UpdateTime : String
  DailyBeesSeen : List String
  FirstSeen : Option String
  HBeesSeen : List String
  WalletAddress : String
  CoveredHexes : List String
  LastSeen : Option String
  DailyAttaches : Int
  H3Hex : String
  Lat : Rat
  Lng : Rat
  Address : String
  Suburb : String
  City : String
  State : String
  Town : String
  County : String
  Active : Int
  FlowerRewards : Rat
  DailyCoveredHexes : List String
  NFTAddress : String
  Nickname : String
  FlowerAttaches : Int
  DailyHBeesSeen : List String
  DailyRewards : Rat
  ImageURL : String
  BeesSeen : String
deriving DecidableEq, Repr, Inhabited

/-- The `Flower` row assembled in the loop body (main.go lines 124-155). -/
def mkFlower (marshalMap : List (String × String) → String)
    (f : FlowerListItem) (geo : ReverseGeocode) : Flower :=
  { ID := f.ID
    BountyRewards := f.BountyRewards
    DisplayName := f.DisplayName
    UpdateTime := f.UpdateTime
    DailyBeesSeen := f.DailyBeesSeen
    FirstSeen := f.FirstSeen
    HBeesSeen := f.HBeesSeen
    WalletAddress := f.WalletAddress
    CoveredHexes := f.CoveredHexes
    LastSeen := f.LastSeen
    DailyAttaches := f.DailyAttaches
    H3Hex := f.H3Hex
    Lat := geo.lat
    Lng := geo.lng
    Address := geo.address
    Suburb := geo.suburb
    City := geo.city
    State := geo.state
    Town := geo.town
    County := geo.county
    Active := f.Active
    FlowerRewards := f.FlowerRewards
    DailyCoveredHexes := f.DailyCoveredHexes
    NFTAddress := f.NFTAddress
    Nickname := f.Nickname
    FlowerAttaches := f.FlowerAttaches
    DailyHBeesSeen := f.DailyHBeesSeen
    DailyRewards := f.DailyRewards
    ImageURL := f.ImageURL
    BeesSeen := marshalMap f.BeesSeen }

/-- The per-flower loop (main.go lines 115-156): geocode each item
(propagating the first error) and assemble rows in input order.  No output is
produced inside the loop. -/
def syncFlowersLoop (latlng : String → Rat × Rat)
    (osm : Rat × Rat → Except String OSMPAPIResponse)
    (marshalMap : List (String × String) → String) :
    List FlowerListItem → GeoState → List Flower →
      Except String (List Flower × GeoState)
  | [], st, acc => .ok (acc.reverse, st)
  | f :: rest, st, acc =>
    match reverseGeocode latlng osm f.H3Hex st with
    | (.error e, _) => .error e
    | (.ok geo, st') =>
      syncFlowersLoop latlng osm marshalMap rest st' (mkFlower marshalMap f geo :: acc)

/-- `syncFlowers` from main.go lines 107-158, projected to its observable
output lines and its result.  On a fetch error it returns before printing
anything; otherwise it prints exactly the one `"Found N flowers"` line (line
112) and runs the loop.  The final `CreateInBatches` upsert (line 157) prints
nothing and is owned by the upsert layer. -/
def syncFlowersOut (latlng : String → Rat × Rat)
    (osm : Rat × Rat → Except String OSMPAPIResponse)
    (marshalMap : List (String × String) → String)
    (fetched : Except String (List FlowerListItem)) (st : GeoState) :
    List String × Except String (List Flower × GeoState) :=
  match fetched with
  | .error e => ([], .error e)
  | .ok flowerItems =>
    (["Found " ++ toString flowerItems.length ++ " flowers"],
     syncFlowersLoop latlng osm marshalMap flowerItems st [])

/-! ### Claim C8 -/

/-- Counterexample for C8: a successful `syncFlowers` run over two flowers
(both geocodes served from the warmed cache, two rows produced) prints exactly
the one initial `"Found 2 flowers"` line — not the claimed one initial line
plus one progress line per flower (three lines for two flowers). -/
theorem syncFlowers_no_progress_output :
    (syncFlowersOut (fun _ => (0, 0)) (fun _ => .error "down") (fun _ => "")
        (.ok [default, default])
        ⟨[("", ⟨0, 0, "", "", "", "", "", ""⟩)], []⟩).1 = ["Found 2 flowers"] ∧
    ((syncFlowersOut (fun _ => (0, 0)) (fun _ => .error "down") (fun _ => "")
        (.ok [default, default])
        ⟨[("", ⟨0, 0, "", "", "", "", "", ""⟩)], []⟩).2.toOption.map
          fun p => p.1.length) = some 2 ∧
    (["Found 2 flowers"] : List String).length ≠ 1 + 2 := by
  refine ⟨by decide, by decide, by decide⟩

/-- Claim C8 (amended): `syncFlowers` reports only the initial total count —
when the fetch succeeds its output is exactly the single `"Found N flowers"`
line, whatever the items; its per-flower loop prints no progress, and a failed
fetch prints nothing. -/
theorem syncFlowers_output_spec (latlng : String → Rat × Rat)
    (osm : Rat × Rat → Except String OSMPAPIResponse)
    (marshalMap : List (String × String) → String) :
    (∀ (flowerItems : List FlowerListItem) (st : GeoState),
        (syncFlowersOut latlng osm marshalMap (.ok flowerItems) st).1 =
          ["Found " ++ toString flowerItems.length ++ " flowers"]) ∧
    (∀ (e : String) (st : GeoState),
        (syncFlowersOut latlng osm marshalMap (.error e) st).1 = []) :=
  ⟨fun _ _ => rfl, fun _ _ => rfl⟩

/-! ### `main` (main.go lines 33-55)

The run-level control flow, as an event trace.  Database opening, migration
and index creation (lines 34-43) are summarised as one `migrateEv`; the trace
assumes the storage and sync calls succeed (any failure aborts via
`handleErr`, which only cuts the trace shorter — the point of claim C2 is the
position of argument validation, which happens inside the per-argument loop
at lines 49-54, after `syncFlowers` (line 47) and `syncRewards` (line 48)). -/

/-- Run-level events of `main`. -/
inductive RunEvent where
  | migrateEv
  | initCacheEv
  | flowersSyncEv
  | rewardsSyncEv
  | hexesSyncEv (hexGroup : String)
  | invalidPanicEv
deriving DecidableEq, Repr

/-- The validation test of main.go line 50: `hexGroup == "" ||
!isValidHex(hexGroup)` (note `isValidHex ""` is already `false`; the emptiness
test is kept as written). -/
def invalidArg (hexGroup : String) : Bool :=
  hexGroup == "" || !(isValidHex hexGroup)

/-- The `for _, hexGroup := range os.Args[1:]` loop of main.go lines 49-54:
each argument is validated just before its own hex sync; an invalid argument
panics, ending the run. -/
def hexGroupLoop : List String → List RunEvent
  | [] => []
  | g :: rest =>
    if invalidArg g then [.invalidPanicEv]
    else .hexesSyncEv g :: hexGroupLoop rest

/-- `main` from main.go lines 33-55 as an event trace over its command-line
arguments (`os.Args[1:]`). -/
def mainEvents (args : List String) : List RunEvent :=
  .migrateEv :: .initCacheEv :: .flowersSyncEv :: .rewardsSyncEv ::
    hexGroupLoop args

/-! ### Claim C2 -/

/-- Counterexample for C2: invoked with the single malformed hex-group
argument `"nothex"`, the run does **not** abort before sync work — the flower
and reward syncs both run (and upsert) before the argument is even looked at;
the validation panic comes only when the argument loop reaches it. -/
theorem main_syncs_before_validation :
    isValidHex "nothex" = false ∧
    mainEvents ["nothex"] =
      [.migrateEv, .initCacheEv, .flowersSyncEv, .rewardsSyncEv,
       .invalidPanicEv] ∧
    RunEvent.flowersSyncEv ∈ mainEvents ["nothex"] ∧
    RunEvent.rewardsSyncEv ∈ mainEvents ["nothex"] := by
  refine ⟨by decide, by decide, by decide, by decide⟩

/-- Validated prefixes pass through the argument loop; the first invalid
argument panics and nothing after it runs. -/
lemma hexGroupLoop_first_invalid (bad : String) (rest : List String)
    (hbad : invalidArg bad = true) : ∀ pre : List String,
    (∀ g ∈ pre, invalidArg g = false) →
      hexGroupLoop (pre ++ bad :: rest) =
        pre.map RunEvent.hexesSyncEv ++ [.invalidPanicEv] := by
  intro pre
  induction pre with
  | nil =>
    intro _
    simp [hexGroupLoop, hbad]
  | cons g pre ih =>
    intro hpre
    have hg : invalidArg g = false := hpre g (List.mem_cons_self g pre)
    simp only [List.cons_append, hexGroupLoop, hg, if_false, Bool.false_eq_true,
      List.map_cons, List.cons_append]
    simp [ih fun g' hg' => hpre g' (List.mem_cons_of_mem g hg')]

/-- Claim C2 (amended): validation is lazy and per-argument — on a run whose
first malformed hex-group argument is `bad`, the migration, cache warm,
flower sync and reward sync all complete first, then each earlier (valid)
argument's hex sync runs, and only when the loop reaches `bad` does the run
abort; `bad`'s own hex sync and all later arguments' work never run. -/
theorem mainEvents_lazy_validation (pre : List String) (bad : String)
    (rest : List String) (hpre : ∀ g ∈ pre, invalidArg g = false)
    (hbad : invalidArg bad = true) :
    mainEvents (pre ++ bad :: rest) =
      [.migrateEv, .initCacheEv, .flowersSyncEv, .rewardsSyncEv] ++
        pre.map RunEvent.hexesSyncEv ++ [.invalidPanicEv] := by
  unfold mainEvents
  rw [hexGroupLoop_first_invalid bad rest hbad pre hpre]
  rfl

/-- Witness for C2 (amended): one valid argument followed by a malformed one. -/
theorem mainEvents_lazy_validation_witness :
    mainEvents ["852a1393fffffff", "nothex"] =
      [.migrateEv, .initCacheEv, .flowersSyncEv, .rewardsSyncEv] ++
        [RunEvent.hexesSyncEv "852a1393fffffff"] ++ [.invalidPanicEv] := by
  have h := mainEvents_lazy_validation ["852a1393fffffff"] "nothex" []
    (by decide) (by decide)
  simpa using h

end PollenSync
